import Mathlib

/-!
Verification of the OCR ingestion adapter and chunking benchmark harness.

This file gives a shallow embedding of the two Python modules
`week03-homework/ocr_research/image_ocr_reader.py` and
`week03-homework/chunking_research/main.py`, and proves the frozen claims
about them.

Modelling conventions:
* Python floats are modelled as `ℚ`; `round(x, n)` and the `:.2f` format
  use round-half-to-even on the rational value (`roundHalfEven`).
* Fallible Python code (raising `ValueError`, `FileNotFoundError`,
  `TypeError`) is modelled with `Except PyErr`.
* `print` diagnostics are side effects without influence on the returned
  values and are not modelled.
* The heterogeneous PaddleOCR result value is modelled by the closed sum
  `OcrElem`, which distinguishes exactly the cases the source branches on:
  a dict-like object (`hasattr(x, 'keys')`), a plain string
  (`isinstance(x, str)`), a nested list (`isinstance(x, list)`), and any
  other object.  A raw result that is not a truthy list takes the same
  zero-detection path as the empty list, so the embedding takes a
  `List OcrElem` as the raw result.
-/

namespace OcrResearch

/-- Python exception kinds raised by the adapter. -/
inductive PyErr where
  | fileNotFound
  | valueError
  | typeError
deriving DecidableEq, Repr

/-- A bounding polygon: an ordered sequence of 2-D points.  The
`.tolist()` conversion on engine arrays is modelled as the identity. -/
abbrev Poly := List (ℚ × ℚ)

/-- A raw confidence value as handed over by the engine: either a value
that `float(...)` coerces successfully, or one on which `float(...)`
raises `ValueError`. -/
inductive ConfVal where
  | num (q : ℚ)
  | bad
deriving DecidableEq, Repr

/-- `float(confidence)`: succeeds on numeric values, raises otherwise. -/
def floatCoerce : ConfVal → Except PyErr ℚ
  | .num q => .ok q
  | .bad => .error .valueError

/-- The dict-like `OCRResult` object of the batch shape
(keys `rec_texts`, `rec_scores`, `dt_polys`; `.get` with default `[]`
is modelled by the fields themselves, an absent key by `[]`). -/
structure OcrDict where
  hasRecTexts : Bool
  recTexts : List String
  recScores : List ConfVal
  dtPolys : List Poly
deriving DecidableEq

/-- The second component `line[1]` of a legacy-shape line: either a
list/tuple with at least two fields `(text, confidence, ...)`, or
anything else (which the source warn-logs and skips). -/
inductive LineSecond where
  | pair (text : String) (conf : ConfVal)
  | notPair
deriving DecidableEq

/-- One entry of the legacy nested-list shape: `good box second` models a
truthy line with `len(line) >= 2` (`box = line[0]`), `short` models a
falsy line or one with fewer than two fields (silently skipped). -/
inductive LineVal where
  | good (box : Poly) (second : LineSecond)
  | short
deriving DecidableEq

/-- One top-level element of the raw OCR result, as discriminated by
`_process_ocr_result`. -/
inductive OcrElem where
  | dict (d : OcrDict)
  | str (s : String)
  | list (lines : List LineVal)
  | other
deriving DecidableEq

/-- Python truthiness of a raw element (used by `if text:` in the flat
branch).  Engine dict objects and unknown objects are modelled as truthy. -/
def OcrElem.truthy : OcrElem → Bool
  | .str s => !s.isEmpty
  | .dict _ => true
  | .list ls => !ls.isEmpty
  | .other => true

/-- One entry of `detailed_blocks` (text, coerced confidence, optional
bounding box, enumeration index). -/
structure Detection where
  text : OcrElem
  confidence : ℚ
  bbox : Option Poly
  block_index : ℕ
deriving DecidableEq

/-- The batch-shape loop of `_process_ocr_result`
(`for idx, text in enumerate(rec_texts)`), lines 244-255 of
`image_ocr_reader.py`.  A failing `float(confidence)` aborts the whole
loop with the exception. -/
def batchLoop (recScores : List ConfVal) (dtPolys : List Poly) :
    ℕ → List String → Except PyErr (List Detection)
  | _, [] => .ok []
  | idx, text :: rest =>
    let confidence := if h : idx < recScores.length then recScores.get ⟨idx, h⟩ else ConfVal.num 1
    let bbox := if h : idx < dtPolys.length then some (dtPolys.get ⟨idx, h⟩) else none
    match floatCoerce confidence with
    | .error e => .error e
    | .ok q =>
      match batchLoop recScores dtPolys (idx + 1) rest with
      | .error e => .error e
      | .ok rest2 => .ok (⟨OcrElem.str text, q, bbox, idx⟩ :: rest2)

/-- The flat-shape loop (`for idx, text in enumerate(ocr_result)` with
`if text:`), lines 261-270.  Falsy elements are skipped but still consume
an enumeration index; confidence is the literal `1.0`, no bounding box. -/
def flatLoop : ℕ → List OcrElem → List Detection
  | _, [] => []
  | idx, e :: rest =>
    if e.truthy then ⟨e, 1, none, idx⟩ :: flatLoop (idx + 1) rest
    else flatLoop (idx + 1) rest

/-- The legacy nested-list loop, lines 274-292.  Short/falsy lines are
skipped silently; a `line[1]` that is not a pair is warn-logged and
skipped; a failing `float(confidence)` aborts the whole loop. -/
def legacyLoop : ℕ → List LineVal → Except PyErr (List Detection)
  | _, [] => .ok []
  | idx, .short :: rest => legacyLoop (idx + 1) rest
  | idx, .good box second :: rest =>
    match second with
    | .notPair => legacyLoop (idx + 1) rest
    | .pair text conf =>
      match floatCoerce conf with
      | .error e => .error e
      | .ok q =>
        match legacyLoop (idx + 1) rest with
        | .error e => .error e
        | .ok rest2 => .ok (⟨OcrElem.str text, q, some box, idx⟩ :: rest2)

/-- Shape dispatch of `_process_ocr_result`, lines 231-292: branch on the
first top-level element (dict-like / plain string / nested list / other);
an empty result produces zero detections. -/
def extractDetections (ocr_result : List OcrElem) : Except PyErr (List Detection) :=
  match ocr_result with
  | [] => .ok []
  | first :: rest =>
    match first with
    | .dict d =>
      if d.hasRecTexts then batchLoop d.recScores d.dtPolys 0 d.recTexts
      else .ok []
    | .str s => .ok (flatLoop 0 (OcrElem.str s :: rest))
    | .list lines => legacyLoop 0 lines
    | .other => .ok []

/-- Python `str(x)` on a text block.  Only string blocks ever reach a
returned document (a non-string block makes the later `"\n".join` raise),
so the rendering of non-string objects is abstracted. -/
def pyStr : OcrElem → String
  | .str s => s
  | .dict _ => "<dict>"
  | .list _ => "<list>"
  | .other => "<object>"

/-- `"\n".join` argument check: joining raises `TypeError` on any
non-string element. -/
def asStr : OcrElem → Except PyErr String
  | .str s => .ok s
  | _ => .error .typeError

/-- Python `sep.join(strings)`. -/
def pyJoin (sep : String) : List String → String
  | [] => ""
  | [x] => x
  | x :: y :: rest => x ++ sep ++ pyJoin sep (y :: rest)

/-- Collect the blocks as strings, raising `TypeError` at the first
non-string block (as `"\n".join` does). -/
def allStrs : List OcrElem → Except PyErr (List String)
  | [] => .ok []
  | b :: rest =>
    match asStr b with
    | .error e => .error e
    | .ok s =>
      match allStrs rest with
      | .error e => .error e
      | .ok ss => .ok (s :: ss)

/-- `"\n".join(text_blocks)` over raw block values. -/
def joinBlocks (blocks : List OcrElem) : Except PyErr String :=
  match allStrs blocks with
  | .error e => .error e
  | .ok strs => .ok (pyJoin "\n" strs)

/-- Round-half-to-even of a rational to an integer (the rounding Python
uses for `round` and float formatting). -/
def roundHalfEven (x : ℚ) : ℤ :=
  let f := ⌊x⌋
  let frac := x - f
  if frac < 1 / 2 then f
  else if frac > 1 / 2 then f + 1
  else if f % 2 = 0 then f else f + 1

/-- Python `round(x, 4)`. -/
def pyRound4 (x : ℚ) : ℚ :=
  (roundHalfEven (x * 10000) : ℚ) / 10000

/-- Two-digit zero-padded rendering of an integer in `[0, 100)`. -/
def twoDigits (m : ℤ) : String :=
  if m < 10 then "0" ++ Int.repr m else Int.repr m

/-- Python `f"{conf:.2f}"` (faithful for the nonnegative confidences the
adapter handles). -/
def pyFormat2 (q : ℚ) : String :=
  let n := roundHalfEven (q * 100)
  Int.repr (n / 100) ++ "." ++ twoDigits (n % 100)

/-- One line of the annotated section:
`f"[Block {i}] (conf: {conf:.2f}): {text}"`. -/
def detailedLine (i : ℕ) (text : OcrElem) (conf : ℚ) : String :=
  "[Block " ++ Nat.repr i ++ "] (conf: " ++ pyFormat2 conf ++ "): " ++ pyStr text

/-- The annotated-section loop
(`for i, (text, conf) in enumerate(zip(text_blocks, confidences), 1)`). -/
def detailedLinesFrom : ℕ → List (OcrElem × ℚ) → List String
  | _, [] => []
  | i, (t, c) :: rest => detailedLine i t c :: detailedLinesFrom (i + 1) rest

/-- The separator between the annotated section and the plain-text
section in the formatted output. -/
def sepBanner : String := "\n\n=== 纯文本内容 ===\n"

/-- `_format_text_blocks`, lines 361-379: empty block list yields `""`;
otherwise the annotated section, the separator and the plain-text section
are concatenated. -/
def formatTextBlocks (text_blocks : List OcrElem) (confidences : List ℚ) :
    Except PyErr String :=
  if text_blocks.isEmpty then .ok ""
  else
    let detailed_text := pyJoin "\n" (detailedLinesFrom 1 (text_blocks.zip confidences))
    match joinBlocks text_blocks with
    | .error e => .error e
    | .ok plain_text => .ok (detailed_text ++ sepBanner ++ plain_text)

/-- Python `min(confidences)` (only applied to nonempty lists). -/
def pyMin : List ℚ → ℚ
  | [] => 0
  | c :: cs => cs.foldl min c

/-- Python `max(confidences)` (only applied to nonempty lists). -/
def pyMax : List ℚ → ℚ
  | [] => 0
  | c :: cs => cs.foldl max c

/-- `sum(confidences) / len(confidences) if confidences else 0.0`. -/
def pyAvg (confidences : List ℚ) : ℚ :=
  if confidences.isEmpty then 0 else confidences.sum / (confidences.length : ℚ)

/-- A metadata value (string, count, rational or boolean). -/
inductive MetaVal where
  | s (v : String)
  | n (v : ℕ)
  | q (v : ℚ)
  | b (v : Bool)
deriving DecidableEq

/-- `d[k] = v` on a Python dict modelled as an association list: replace
the existing entry for `k` or append a fresh one. -/
def dictSet (d : List (String × MetaVal)) (k : String) (v : MetaVal) :
    List (String × MetaVal) :=
  if d.any (fun p => p.1 == k) then d.map (fun p => if p.1 == k then (k, v) else p)
  else d ++ [(k, v)]

/-- `base.update(extra)`: write every entry of `extra` into `base` in
order (later duplicate keys in `extra` win, as in a Python dict). -/
def dictUpdate (base : List (String × MetaVal)) (extra : List (String × MetaVal)) :
    List (String × MetaVal) :=
  extra.foldl (fun acc p => dictSet acc p.1 p.2) base

/-- `d.get(k)`: the value stored at `k`, if any. -/
def dictGet (d : List (String × MetaVal)) (k : String) : Option MetaVal :=
  (d.find? (fun p => p.1 == k)).map (fun p => p.2)

/-- Reader configuration fields used by the metadata. -/
structure ReaderCfg where
  ocr_version : String
  lang : String
  use_gpu : Bool

/-- A file path value: absolute rendering, file name, `Path.suffix`, and
whether the file exists at call time. -/
structure PyPath where
  absPath : String
  name : String
  suffix : String
  fileExists : Bool

/-- The metadata construction of `_process_ocr_result`, lines 298-331:
the computed entries in source order, then `metadata.update(extra_info)`
when `extra_info` is supplied. -/
def buildMetadata (cfg : ReaderCfg) (file_path : PyPath) (text_blocks : List OcrElem)
    (confidences : List ℚ) (extra_info : Option (List (String × MetaVal))) :
    List (String × MetaVal) :=
  let avg_confidence := pyAvg confidences
  let metadata : List (String × MetaVal) :=
    [("image_path", .s file_path.absPath),
     ("file_name", .s file_path.name),
     ("ocr_model", .s cfg.ocr_version),
     ("language", .s cfg.lang),
     ("num_text_blocks", .n text_blocks.length),
     ("avg_confidence", .q (pyRound4 avg_confidence)),
     ("min_confidence", .q (if confidences.isEmpty then 0 else pyRound4 (pyMin confidences))),
     ("max_confidence", .q (if confidences.isEmpty then 0 else pyRound4 (pyMax confidences))),
     ("used_gpu", .b cfg.use_gpu)]
  match extra_info with
  | some extra => dictUpdate metadata extra
  | none => metadata

/-- `_process_ocr_result`, lines 192-333: extract detections, format the
text, build the metadata. -/
def processOcrResult (cfg : ReaderCfg) (ocr_result : List OcrElem) (file_path : PyPath)
    (extra_info : Option (List (String × MetaVal))) :
    Except PyErr (String × List (String × MetaVal)) :=
  match extractDetections ocr_result with
  | .error e => .error e
  | .ok dets =>
    let text_blocks := dets.map Detection.text
    let confidences := dets.map Detection.confidence
    match formatTextBlocks text_blocks confidences with
    | .error e => .error e
    | .ok formatted_text =>
      .ok (formatted_text, buildMetadata cfg file_path text_blocks confidences extra_info)

/-- The supported raster extensions of `load_data`, line 163. -/
def supported_formats : List String :=
  [".png", ".jpg", ".jpeg", ".bmp", ".tiff", ".tif", ".webp"]

/-- Python `str.lower()`, character-wise lowercasing. -/
def pyLower (s : String) : String := String.mk (s.data.map Char.toLower)

/-- The per-file loop of `load_data`, lines 154-188: existence check,
extension check, engine call, result processing; the first exception
aborts the whole batch.  The second component counts engine invocations. -/
def loadDataGo (cfg : ReaderCfg) (engine : PyPath → List OcrElem)
    (extra_info : Option (List (String × MetaVal))) :
    List PyPath → ℕ → Except PyErr (List (String × List (String × MetaVal))) × ℕ
  | [], calls => (.ok [], calls)
  | p :: rest, calls =>
    if p.fileExists = false then (.error .fileNotFound, calls)
    else if pyLower p.suffix ∉ supported_formats then (.error .valueError, calls)
    else
      match processOcrResult cfg (engine p) p extra_info with
      | .error e => (.error e, calls + 1)
      | .ok doc =>
        match loadDataGo cfg engine extra_info rest (calls + 1) with
        | (.ok docs, c) => (.ok (doc :: docs), c)
        | (.error e, c) => (.error e, c)

/-- `load_data` on an explicit list of files, starting with zero engine
invocations. -/
def loadData (cfg : ReaderCfg) (engine : PyPath → List OcrElem) (files : List PyPath)
    (extra_info : Option (List (String × MetaVal))) :
    Except PyErr (List (String × List (String × MetaVal))) × ℕ :=
  loadDataGo cfg engine extra_info files 0

/-- Modelled from the spec: the separator line of the formatted document,
as a line of its own. -/
def sepLine : String := "=== 纯文本内容 ==="

/-- Modelled from the spec: split a document into its lines (the parsing
direction of the round-trip property, which the repository itself does
not implement). -/
def parseLines (s : String) : List String :=
  (s.data.splitOn '\n').map String.mk

/-- Modelled from the spec: the plain-text section of a formatted
document, read as the lines after the separator line. -/
def plainTextLines (s : String) : List String :=
  ((parseLines s).dropWhile (fun l => l != sepLine)).drop 1

end OcrResearch

namespace ChunkingResearch

/-- One retrieved source record: text plus similarity score. -/
structure SourceNode where
  text : String
  score : ℚ

/-- The query response handed back by the index collaborator. -/
structure QueryResponse where
  response : String
  source_nodes : List SourceNode

/-- The evaluation record returned by both evaluation functions. -/
structure EvalResult where
  config_name : String
  num_chunks : ℕ
  query_time : ℚ
  response : String
  num_sources : ℕ
  avg_similarity : ℚ

/-- `evaluate_splitter`, `main.py` lines 171-184: the returned metrics of
one configuration, as a function of the collaborator outputs (chunk
nodes, query response, elapsed time). -/
def evaluate_splitter (nodes : List String) (resp : QueryResponse)
    (config_name : String) (elapsed : ℚ) : EvalResult :=
  { config_name := config_name
    num_chunks := nodes.length
    query_time := elapsed
    response := resp.response
    num_sources := resp.source_nodes.length
    avg_similarity :=
      if resp.source_nodes.isEmpty then 0
      else (resp.source_nodes.map SourceNode.score).sum / (resp.source_nodes.length : ℚ) }

/-- `evaluate_sentence_window_splitter`, `main.py` lines 278-291: the
same metric computation for the sentence-window configuration. -/
def evaluate_sentence_window_splitter (nodes : List String) (resp : QueryResponse)
    (config_name : String) (elapsed : ℚ) : EvalResult :=
  { config_name := config_name
    num_chunks := nodes.length
    query_time := elapsed
    response := resp.response
    num_sources := resp.source_nodes.length
    avg_similarity :=
      if resp.source_nodes.isEmpty then 0
      else (resp.source_nodes.map SourceNode.score).sum / (resp.source_nodes.length : ℚ) }

/-- Modelled from the spec: the arithmetic mean of a list of scores. -/
def arithMean (scores : List ℚ) : ℚ :=
  scores.sum / (scores.length : ℚ)

end ChunkingResearch

namespace OcrResearch

/-- A sample reader configuration (the constructor defaults). -/
def cfg0 : ReaderCfg := ⟨"PP-OCRv4", "ch", false⟩

/-- A sample existing image path. -/
def path0 : PyPath := ⟨"/img/a.png", "a.png", ".png", true⟩

/-- The raw result of the batch-shape scenario
`[{"rec_texts": ["A","B"], "rec_scores": [0.9, 0.8]}]`. -/
def c6raw : List OcrElem :=
  [OcrElem.dict ⟨true, ["A", "B"], [ConfVal.num (9 / 10), ConfVal.num (8 / 10)], []⟩]

/-- The formatted text the batch-shape scenario produces. -/
def c6text : String :=
  "[Block 1] (conf: 0.90): A\n[Block 2] (conf: 0.80): B\n\n=== 纯文本内容 ===\nA\nB"

/-- The formatted text of the batch-shape scenario, after its first line. -/
def c6rest : String :=
  "\n[Block 2] (conf: 0.80): B\n\n=== 纯文本内容 ===\nA\nB"

/-- A flat-shape raw result with two empty (falsy) texts. -/
def c9raw : List OcrElem :=
  [OcrElem.str "A", OcrElem.str "", OcrElem.str "B", OcrElem.str ""]

end OcrResearch
namespace OcrResearch

theorem floatCoerce_error {c : ConfVal} {e : PyErr} (h : floatCoerce c = .error e) :
    e = PyErr.valueError := by
  cases c <;> simp_all [floatCoerce]

theorem batchLoop_error_of_bad (recScores : List ConfVal) (dtPolys : List Poly) :
    ∀ (texts : List String) (start j : ℕ), j < texts.length →
      recScores.get? (start + j) = some ConfVal.bad →
      batchLoop recScores dtPolys start texts = .error PyErr.valueError := by
  intro texts
  induction texts with
  | nil => intro start j hj _; simp at hj
  | cons t rest ih =>
    intro start j hj hbad
    rw [batchLoop]
    rcases j with _ | j
    · have hlt : start < recScores.length := by
        have := List.get?_eq_some.mp (by simpa using hbad)
        exact this.1
      have hget : recScores.get ⟨start, hlt⟩ = ConfVal.bad := by
        have := List.get?_eq_some.mp (by simpa using hbad)
        rcases this with ⟨h1, h2⟩
        simpa using h2
      simp only [hlt, dif_pos, hget]
      rfl
    · have hj' : j < rest.length := by simpa using hj
      have hbad' : recScores.get? ((start + 1) + j) = some ConfVal.bad := by
        have : (start + 1) + j = start + (j + 1) := by omega
        rw [this]; exact hbad
      have herr := ih (start + 1) j hj' hbad'
      cases hc : floatCoerce (if h : start < recScores.length then recScores.get ⟨start, h⟩ else ConfVal.num 1) with
      | error e => simp [floatCoerce_error hc]
      | ok q => simp [herr]

theorem legacyLoop_error_of_bad (lines : List LineVal) :
    ∀ (idx : ℕ) (box : Poly) (text : String),
      LineVal.good box (LineSecond.pair text ConfVal.bad) ∈ lines →
      legacyLoop idx lines = .error PyErr.valueError := by
  induction lines with
  | nil => intro idx box text h; simp at h
  | cons line rest ih =>
    intro idx box text h
    rcases List.mem_cons.mp h with h1 | h2
    · subst h1
      rfl
    · cases line with
      | short => exact ih (idx + 1) box text h2
      | good b2 s2 =>
        cases s2 with
        | notPair => exact ih (idx + 1) box text h2
        | pair t2 c2 =>
          have herr := ih (idx + 1) box text h2
          cases c2 with
          | bad => rfl
          | num q => simp [legacyLoop, floatCoerce, herr]

/-- C1 amended: in both shapes that coerce an engine confidence with
`float(...)` — the batch shape (`rec_scores` entry, line 249) and the
legacy nested-list shape (the line's confidence field, line 286) — a
coercion failure propagates the `ValueError` and aborts the whole
`_process_ocr_result` call; the detection is not skipped. -/
theorem c1_coercion_failure_aborts :
    (∀ (cfg : ReaderCfg) (d : OcrDict) (rest : List OcrElem) (p : PyPath)
        (extra : Option (List (String × MetaVal))) (j : ℕ),
      d.hasRecTexts = true → j < d.recTexts.length →
      d.recScores.get? j = some ConfVal.bad →
      processOcrResult cfg (OcrElem.dict d :: rest) p extra = .error PyErr.valueError) ∧
    (∀ (cfg : ReaderCfg) (lines : List LineVal) (rest : List OcrElem) (p : PyPath)
        (extra : Option (List (String × MetaVal))) (box : Poly) (text : String),
      LineVal.good box (LineSecond.pair text ConfVal.bad) ∈ lines →
      processOcrResult cfg (OcrElem.list lines :: rest) p extra = .error PyErr.valueError) := by
  constructor
  · intro cfg d rest p extra j hk hj hbad
    have herr := batchLoop_error_of_bad d.recScores d.dtPolys d.recTexts 0 j hj
      (by simpa using hbad)
    simp [processOcrResult, extractDetections, hk, herr]
  · intro cfg lines rest p extra box text hmem
    have herr := legacyLoop_error_of_bad lines 0 box text hmem
    simp [processOcrResult, extractDetections, herr]

/-- C1 counterexample. -/
theorem c1_counterexample :
    processOcrResult cfg0
      [OcrElem.dict ⟨true, ["A", "B"], [ConfVal.num (9 / 10), ConfVal.bad], []⟩]
      path0 none = .error PyErr.valueError := rfl

/-- C1 witness: a bad batch score and a bad legacy-line confidence each
abort the call with `ValueError` at a concrete input. -/
theorem c1_coercion_failure_aborts_witness :
    processOcrResult cfg0
      [OcrElem.dict ⟨true, ["X", "Y", "Z"], [ConfVal.bad], []⟩]
      path0 none = .error PyErr.valueError ∧
    processOcrResult cfg0
      [OcrElem.list [LineVal.good [] (LineSecond.pair "L" ConfVal.bad)]]
      path0 none = .error PyErr.valueError :=
  ⟨c1_coercion_failure_aborts.1 cfg0 ⟨true, ["X", "Y", "Z"], [ConfVal.bad], []⟩ [] path0 none 0
     rfl (by decide) (by decide),
   c1_coercion_failure_aborts.2 cfg0 [LineVal.good [] (LineSecond.pair "L" ConfVal.bad)] []
     path0 none [] "L" (by decide)⟩

end OcrResearch
namespace OcrResearch

/-- C5 amended. -/
theorem c5_unsupported_extension (cfg : ReaderCfg) (engine : PyPath → List OcrElem)
    (extra : Option (List (String × MetaVal))) (p : PyPath)
    (hex : p.fileExists = true)
    (hfmt : pyLower p.suffix ∉ supported_formats) :
    loadData cfg engine [p] extra = (.error PyErr.valueError, 0) := by
  simp [loadData, loadDataGo, hex, hfmt]

/-- C5 witness. -/
theorem c5_unsupported_extension_witness :
    loadData cfg0 (fun _ => []) [⟨"/img/a.gif", "a.gif", ".gif", true⟩] none
      = (.error PyErr.valueError, 0) :=
  c5_unsupported_extension cfg0 (fun _ => []) none ⟨"/img/a.gif", "a.gif", ".gif", true⟩
    rfl (by decide)

/-- C5 counterexample. -/
theorem c5_counterexample :
    (loadData cfg0 (fun _ => []) [⟨"/img/m.gif", "m.gif", ".gif", false⟩] none).1
      = .error PyErr.fileNotFound ∧
    PyErr.fileNotFound ≠ PyErr.valueError :=
  ⟨rfl, by decide⟩

-- flat loop lemmas
theorem flatLoop_text (texts : List String) : ∀ i,
    (flatLoop i (texts.map OcrElem.str)).map Detection.text
      = (texts.filter (fun t => !t.isEmpty)).map OcrElem.str := by
  induction texts with
  | nil => intro i; simp [flatLoop]
  | cons t rest ih =>
    intro i
    by_cases h : t.isEmpty
    · simp [flatLoop, OcrElem.truthy, h, List.filter_cons, ih]
    · simp [flatLoop, OcrElem.truthy, h, List.filter_cons, ih]

theorem flatLoop_confidence (l : List OcrElem) : ∀ i,
    (flatLoop i l).map Detection.confidence
      = List.replicate (flatLoop i l).length 1 := by
  induction l with
  | nil => intro i; simp [flatLoop]
  | cons e rest ih =>
    intro i
    by_cases h : e.truthy
    · simp [flatLoop, h, List.replicate_succ, ih]
    · simp [flatLoop, h, ih]

theorem flatLoop_bbox (l : List OcrElem) : ∀ i,
    (flatLoop i l).map Detection.bbox
      = List.replicate (flatLoop i l).length none := by
  induction l with
  | nil => intro i; simp [flatLoop]
  | cons e rest ih =>
    intro i
    by_cases h : e.truthy
    · simp [flatLoop, h, List.replicate_succ, ih]
    · simp [flatLoop, h, ih]

theorem extractDetections_flat (texts : List String) :
    extractDetections (texts.map OcrElem.str)
      = .ok (flatLoop 0 (texts.map OcrElem.str)) := by
  cases texts with
  | nil => simp [extractDetections, flatLoop]
  | cons t rest => simp [extractDetections]

/-- C7. -/
theorem flatLoop_text_all (l : List OcrElem) : ∀ i,
    (flatLoop i l).map Detection.text = l.filter OcrElem.truthy := by
  induction l with
  | nil => intro i; simp [flatLoop]
  | cons e rest ih =>
    intro i
    by_cases h : e.truthy
    · simp [flatLoop, h, List.filter_cons, ih]
    · simp [flatLoop, h, List.filter_cons, ih]

theorem c7_flat_shape :
    (∀ (s : String) (rest : List OcrElem),
      extractDetections (OcrElem.str s :: rest)
        = Except.ok (flatLoop 0 (OcrElem.str s :: rest))) ∧
    (∀ l : List OcrElem, (flatLoop 0 l).map Detection.text = l.filter OcrElem.truthy) ∧
    (∀ l : List OcrElem, (flatLoop 0 l).map Detection.confidence
      = List.replicate (flatLoop 0 l).length 1) ∧
    (∀ l : List OcrElem, (flatLoop 0 l).map Detection.bbox
      = List.replicate (flatLoop 0 l).length none) ∧
    extractDetections [OcrElem.str "A", OcrElem.str "B", OcrElem.str "C"]
      = .ok [⟨OcrElem.str "A", 1, none, 0⟩, ⟨OcrElem.str "B", 1, none, 1⟩,
             ⟨OcrElem.str "C", 1, none, 2⟩] :=
  ⟨fun _ _ => rfl, fun l => flatLoop_text_all l 0, fun l => flatLoop_confidence l 0,
   fun l => flatLoop_bbox l 0, rfl⟩

/-- C9. -/
theorem c9_flat_skips_empty :
    (∀ texts : List String,
      (flatLoop 0 (texts.map OcrElem.str)).length
        = (texts.filter (fun t => !t.isEmpty)).length) ∧
    (processOcrResult cfg0 c9raw path0 none).map (fun pr => dictGet pr.2 "num_text_blocks")
      = Except.ok (some (MetaVal.n 2)) ∧
    (flatLoop 0 c9raw).length < c9raw.length := by
  refine ⟨fun texts => ?_, rfl, by decide⟩
  have h := congrArg List.length (flatLoop_text texts 0)
  simpa using h

end OcrResearch
namespace ChunkingResearch

/-- C8. -/
theorem c8_avg_similarity (nodes nodes2 : List String) (resp : QueryResponse)
    (name1 name2 : String) (t1 t2 : ℚ) :
    (evaluate_splitter nodes resp name1 t1).avg_similarity
      = (if resp.source_nodes.isEmpty then 0
         else arithMean (resp.source_nodes.map SourceNode.score)) ∧
    (evaluate_sentence_window_splitter nodes2 resp name2 t2).avg_similarity
      = (if resp.source_nodes.isEmpty then 0
         else arithMean (resp.source_nodes.map SourceNode.score)) := by
  constructor <;> simp [evaluate_splitter, evaluate_sentence_window_splitter, arithMean]

end ChunkingResearch

namespace OcrResearch

theorem allStrs_map_str (texts : List String) :
    allStrs (texts.map OcrElem.str) = Except.ok texts := by
  induction texts with
  | nil => rfl
  | cons t rest ih => simp [allStrs, asStr, ih]

theorem joinBlocks_strings (texts : List String) :
    joinBlocks (texts.map OcrElem.str) = .ok (pyJoin "\n" texts) := by
  simp [joinBlocks, allStrs_map_str]

theorem formatTextBlocks_strings (texts : List String) (confs : List ℚ)
    (hne : texts ≠ []) :
    formatTextBlocks (texts.map OcrElem.str) confs
      = .ok (pyJoin "\n" (detailedLinesFrom 1 ((texts.map OcrElem.str).zip confs))
          ++ sepBanner ++ pyJoin "\n" texts) := by
  cases texts with
  | nil => exact absurd rfl hne
  | cons t rest =>
    have hj := joinBlocks_strings (t :: rest)
    simp only [List.map_cons] at hj
    simp [formatTextBlocks, hj]

/-- C3 amended. -/
theorem c3_sections_present (texts : List String) (confs : List ℚ) (hne : texts ≠ []) :
    formatTextBlocks (texts.map OcrElem.str) confs
      = .ok (pyJoin "\n" (detailedLinesFrom 1 ((texts.map OcrElem.str).zip confs))
          ++ sepBanner ++ pyJoin "\n" texts) ∧
    ∀ confs2 : List ℚ, formatTextBlocks [] confs2 = .ok "" :=
  ⟨formatTextBlocks_strings texts confs hne, fun _ => rfl⟩

/-- C3 witness. -/
theorem c3_sections_present_witness :
    formatTextBlocks ([OcrElem.str "A"]) [1]
      = .ok (pyJoin "\n" (detailedLinesFrom 1 (([OcrElem.str "A"]).zip [1]))
          ++ sepBanner ++ pyJoin "\n" ["A"]) ∧
    ∀ confs2 : List ℚ, formatTextBlocks [] confs2 = .ok "" := by
  have h := c3_sections_present ["A"] [1] (by decide)
  simpa using h

/-- C3 counterexample. -/
theorem c3_counterexample :
    formatTextBlocks [] [] = .ok "" ∧ ¬ sepBanner.data <:+: ("" : String).data := by
  refine ⟨rfl, ?_⟩
  intro h
  rw [show ("" : String).data = [] from rfl, List.infix_nil] at h
  exact absurd (congrArg List.length h) (by decide)

-- rounding evaluation helpers
theorem roundHalfEven_int (n : ℤ) : roundHalfEven (n : ℚ) = n := by
  simp [roundHalfEven]

theorem pyFormat2_eq (q : ℚ) (n : ℤ) (h : q * 100 = (n : ℚ)) :
    pyFormat2 q = Int.repr (n / 100) ++ "." ++ twoDigits (n % 100) := by
  simp [pyFormat2, h, roundHalfEven_int]

theorem pyRound4_eq (q : ℚ) (n : ℤ) (h : q * 10000 = (n : ℚ)) :
    pyRound4 q = (n : ℚ) / 10000 := by
  simp [pyRound4, h, roundHalfEven_int]

theorem c6_line1 : detailedLine 1 (OcrElem.str "A") (9 / 10) = "[Block 1] (conf: 0.90): A" := by
  rw [detailedLine, pyFormat2_eq (9 / 10) 90 (by norm_num)]
  rfl

theorem c6_line2 : detailedLine 2 (OcrElem.str "B") (8 / 10) = "[Block 2] (conf: 0.80): B" := by
  rw [detailedLine, pyFormat2_eq (8 / 10) 80 (by norm_num)]
  rfl

theorem c6_pipeline : processOcrResult cfg0 c6raw path0 none
    = Except.ok ((detailedLine 1 (OcrElem.str "A") (9 / 10) ++ "\n"
          ++ detailedLine 2 (OcrElem.str "B") (8 / 10))
        ++ sepBanner ++ ("A" ++ "\n" ++ "B"),
      buildMetadata cfg0 path0 [OcrElem.str "A", OcrElem.str "B"] [9 / 10, 8 / 10] none) := rfl

end OcrResearch
namespace OcrResearch

/-- C6. -/
theorem c6_batch_scenario :
    processOcrResult cfg0 c6raw path0 none
      = Except.ok (c6text,
          buildMetadata cfg0 path0 [OcrElem.str "A", OcrElem.str "B"] [9 / 10, 8 / 10] none) ∧
    dictGet (buildMetadata cfg0 path0 [OcrElem.str "A", OcrElem.str "B"] [9 / 10, 8 / 10] none)
        "num_text_blocks" = some (MetaVal.n 2) ∧
    dictGet (buildMetadata cfg0 path0 [OcrElem.str "A", OcrElem.str "B"] [9 / 10, 8 / 10] none)
        "avg_confidence" = some (MetaVal.q (85 / 100)) ∧
    c6text = "[Block 1] (conf: 0.90): A" ++ c6rest := by
  refine ⟨?_, rfl, ?_, rfl⟩
  · rw [c6_pipeline, c6_line1, c6_line2]
    rfl
  · show some (MetaVal.q (pyRound4 (pyAvg [9 / 10, 8 / 10]))) = some (MetaVal.q (85 / 100))
    have h1 : pyAvg [(9 : ℚ) / 10, 8 / 10] = 17 / 20 := by norm_num [pyAvg]
    have h2 : pyRound4 ((17 : ℚ) / 20) = 85 / 100 := by
      rw [pyRound4_eq (17 / 20) 8500 (by norm_num)]
      norm_num
    rw [h1, h2]

end OcrResearch
namespace OcrResearch

-- bounds for roundHalfEven and pyRound4
theorem roundHalfEven_nonneg {x : ℚ} (hx : 0 ≤ x) : 0 ≤ roundHalfEven x := by
  have hf : (0 : ℤ) ≤ ⌊x⌋ := Int.floor_nonneg.mpr hx
  simp only [roundHalfEven]
  split_ifs <;> omega

theorem roundHalfEven_le {x : ℚ} {m : ℤ} (hx : x ≤ (m : ℚ)) : roundHalfEven x ≤ m := by
  have hf : ⌊x⌋ ≤ m := by
    calc ⌊x⌋ ≤ ⌊(m : ℚ)⌋ := Int.floor_le_floor hx
    _ = m := Int.floor_intCast m
  have hfl : ((⌊x⌋ : ℤ) : ℚ) ≤ x := Int.floor_le x
  simp only [roundHalfEven]
  split_ifs with h1 h2 h3
  · exact hf
  · by_contra hc
    have hm : ⌊x⌋ = m := by omega
    have hmq : ((⌊x⌋ : ℤ) : ℚ) = (m : ℚ) := by rw [hm]
    rw [hmq] at h2
    linarith
  · exact hf
  · by_contra hc
    have hm : ⌊x⌋ = m := by omega
    have hmq : ((⌊x⌋ : ℤ) : ℚ) = (m : ℚ) := by rw [hm]
    rw [hmq] at h1 h2
    have : x - (m : ℚ) = 1 / 2 := by linarith
    linarith

theorem pyRound4_nonneg {x : ℚ} (hx : 0 ≤ x) : 0 ≤ pyRound4 x := by
  have h := roundHalfEven_nonneg (x := x * 10000) (by positivity)
  have hq : (0 : ℚ) ≤ (roundHalfEven (x * 10000) : ℚ) := by exact_mod_cast h
  unfold pyRound4
  positivity

theorem pyRound4_le_one {x : ℚ} (hx : x ≤ 1) : pyRound4 x ≤ 1 := by
  have h : roundHalfEven (x * 10000) ≤ (10000 : ℤ) := by
    apply roundHalfEven_le
    push_cast
    linarith
  unfold pyRound4
  rw [div_le_one (by norm_num)]
  exact_mod_cast h

theorem pyRound4_zero : pyRound4 0 = 0 := by
  rw [pyRound4_eq 0 0 (by norm_num)]
  norm_num

-- bounds for sums, means, folds
theorem list_sum_le_length {l : List ℚ} (h : ∀ q ∈ l, q ≤ 1) : l.sum ≤ (l.length : ℚ) := by
  induction l with
  | nil => simp
  | cons a t ih =>
    simp only [List.sum_cons, List.length_cons]
    have ha := h a (by simp)
    have ht := ih (fun q hq => h q (by simp [hq]))
    push_cast
    linarith

theorem pyAvg_nonneg {l : List ℚ} (h : ∀ q ∈ l, 0 ≤ q) : 0 ≤ pyAvg l := by
  unfold pyAvg
  split_ifs
  · exact le_refl 0
  · exact div_nonneg (List.sum_nonneg h) (by positivity)

theorem pyAvg_le_one {l : List ℚ} (h : ∀ q ∈ l, q ≤ 1) : pyAvg l ≤ 1 := by
  unfold pyAvg
  split_ifs with h1
  · norm_num
  · have hne : l ≠ [] := by
      intro he
      rw [he] at h1
      simp at h1
    have hpos : (0 : ℚ) < l.length := by
      have := List.length_pos.mpr hne
      exact_mod_cast this
    rw [div_le_one hpos]
    simpa using list_sum_le_length h

theorem foldl_min_bounds {lo hi : ℚ} (l : List ℚ) : ∀ a : ℚ, lo ≤ a → a ≤ hi →
    (∀ q ∈ l, lo ≤ q ∧ q ≤ hi) → lo ≤ l.foldl min a ∧ l.foldl min a ≤ hi := by
  induction l with
  | nil => intro a h1 h2 _; simpa using ⟨h1, h2⟩
  | cons b t ih =>
    intro a h1 h2 h
    simp only [List.foldl_cons]
    have hb := h b (by simp)
    exact ih (min a b) (le_min h1 hb.1) ((min_le_left a b).trans h2)
      (fun q hq => h q (by simp [hq]))

theorem foldl_max_bounds {lo hi : ℚ} (l : List ℚ) : ∀ a : ℚ, lo ≤ a → a ≤ hi →
    (∀ q ∈ l, lo ≤ q ∧ q ≤ hi) → lo ≤ l.foldl max a ∧ l.foldl max a ≤ hi := by
  induction l with
  | nil => intro a h1 h2 _; simpa using ⟨h1, h2⟩
  | cons b t ih =>
    intro a h1 h2 h
    simp only [List.foldl_cons]
    have hb := h b (by simp)
    exact ih (max a b) (h1.trans (le_max_left a b)) (max_le h2 hb.2)
      (fun q hq => h q (by simp [hq]))

theorem pyMin_bounds {l : List ℚ} (hne : l ≠ []) (h : ∀ q ∈ l, 0 ≤ q ∧ q ≤ 1) :
    0 ≤ pyMin l ∧ pyMin l ≤ 1 := by
  cases l with
  | nil => exact absurd rfl hne
  | cons c cs =>
    have hc := h c (by simp)
    exact foldl_min_bounds cs c hc.1 hc.2 (fun q hq => h q (by simp [hq]))

theorem pyMax_bounds {l : List ℚ} (hne : l ≠ []) (h : ∀ q ∈ l, 0 ≤ q ∧ q ≤ 1) :
    0 ≤ pyMax l ∧ pyMax l ≤ 1 := by
  cases l with
  | nil => exact absurd rfl hne
  | cons c cs =>
    have hc := h c (by simp)
    exact foldl_max_bounds cs c hc.1 hc.2 (fun q hq => h q (by simp [hq]))

end OcrResearch
namespace OcrResearch

/-- C2 amended. -/
theorem c2_confidence_stats_bounded (cfg : ReaderCfg) (p : PyPath) (blocks : List OcrElem)
    (confs : List ℚ) (hb : ∀ q ∈ confs, 0 ≤ q ∧ q ≤ 1) :
    ∃ a mn mx : ℚ,
      dictGet (buildMetadata cfg p blocks confs none) "avg_confidence" = some (MetaVal.q a) ∧
      dictGet (buildMetadata cfg p blocks confs none) "min_confidence" = some (MetaVal.q mn) ∧
      dictGet (buildMetadata cfg p blocks confs none) "max_confidence" = some (MetaVal.q mx) ∧
      0 ≤ a ∧ a ≤ 1 ∧ 0 ≤ mn ∧ mn ≤ 1 ∧ 0 ≤ mx ∧ mx ≤ 1 ∧
      (confs = [] → a = 0 ∧ mn = 0 ∧ mx = 0) := by
  refine ⟨pyRound4 (pyAvg confs),
    if confs.isEmpty then 0 else pyRound4 (pyMin confs),
    if confs.isEmpty then 0 else pyRound4 (pyMax confs),
    rfl, rfl, rfl, ?_, ?_, ?_, ?_, ?_, ?_, ?_⟩
  · exact pyRound4_nonneg (pyAvg_nonneg (fun q hq => (hb q hq).1))
  · exact pyRound4_le_one (pyAvg_le_one (fun q hq => (hb q hq).2))
  · by_cases hne : confs = []
    · simp [hne]
    · rw [if_neg (by simpa using hne)]
      exact pyRound4_nonneg (pyMin_bounds hne hb).1
  · by_cases hne : confs = []
    · simp [hne]
    · rw [if_neg (by simpa using hne)]
      exact pyRound4_le_one (pyMin_bounds hne hb).2
  · by_cases hne : confs = []
    · simp [hne]
    · rw [if_neg (by simpa using hne)]
      exact pyRound4_nonneg (pyMax_bounds hne hb).1
  · by_cases hne : confs = []
    · simp [hne]
    · rw [if_neg (by simpa using hne)]
      exact pyRound4_le_one (pyMax_bounds hne hb).2
  · intro he
    subst he
    refine ⟨?_, rfl, rfl⟩
    show pyRound4 (pyAvg []) = 0
    rw [show pyAvg [] = 0 from rfl, pyRound4_zero]

/-- C2 witness. -/
theorem c2_confidence_stats_bounded_witness :
    ∃ a mn mx : ℚ,
      dictGet (buildMetadata cfg0 path0 [OcrElem.str "t"] [1] none) "avg_confidence"
        = some (MetaVal.q a) ∧
      dictGet (buildMetadata cfg0 path0 [OcrElem.str "t"] [1] none) "min_confidence"
        = some (MetaVal.q mn) ∧
      dictGet (buildMetadata cfg0 path0 [OcrElem.str "t"] [1] none) "max_confidence"
        = some (MetaVal.q mx) ∧
      0 ≤ a ∧ a ≤ 1 ∧ 0 ≤ mn ∧ mn ≤ 1 ∧ 0 ≤ mx ∧ mx ≤ 1 ∧
      ([(1 : ℚ)] = [] → a = 0 ∧ mn = 0 ∧ mx = 0) :=
  c2_confidence_stats_bounded cfg0 path0 [OcrElem.str "t"] [1]
    (by intro q hq; rw [List.mem_singleton.mp hq]; norm_num)

/-- C2 counterexample. -/
theorem c2_counterexample :
    dictGet (buildMetadata cfg0 path0 [OcrElem.str "t"] [0] none) "avg_confidence"
      = some (MetaVal.q 0) ∧
    dictGet (buildMetadata cfg0 path0 [OcrElem.str "t"] [0] none) "min_confidence"
      = some (MetaVal.q 0) ∧
    dictGet (buildMetadata cfg0 path0 [OcrElem.str "t"] [0] none) "max_confidence"
      = some (MetaVal.q 0) ∧
    ([(0 : ℚ)] ≠ []) ∧ (0 ≤ (0 : ℚ) ∧ (0 : ℚ) ≤ 1) := by
  have havg : pyRound4 (pyAvg [0]) = 0 := by
    rw [show pyAvg [(0 : ℚ)] = 0 by norm_num [pyAvg], pyRound4_zero]
  have hmin : pyRound4 (pyMin [0]) = 0 := by
    rw [show pyMin [(0 : ℚ)] = 0 from rfl, pyRound4_zero]
  have hmax : pyRound4 (pyMax [0]) = 0 := by
    rw [show pyMax [(0 : ℚ)] = 0 from rfl, pyRound4_zero]
  refine ⟨?_, ?_, ?_, by simp, by norm_num⟩
  · show some (MetaVal.q (pyRound4 (pyAvg [0]))) = some (MetaVal.q 0)
    rw [havg]
  · show some (MetaVal.q (pyRound4 (pyMin [0]))) = some (MetaVal.q 0)
    rw [hmin]
  · show some (MetaVal.q (pyRound4 (pyMax [0]))) = some (MetaVal.q 0)
    rw [hmax]

end OcrResearch
namespace OcrResearch

theorem find?_pair_cons (k : String) (p : String × MetaVal) (l : List (String × MetaVal)) :
    List.find? (fun q => q.1 == k) (p :: l)
      = if p.1 == k then some p else List.find? (fun q => q.1 == k) l := by
  by_cases h : (p.1 == k) = true
  · rw [if_pos h]
    exact List.find?_cons_of_pos _ h
  · rw [if_neg h]
    exact List.find?_cons_of_neg _ h

theorem find?_map_set (d : List (String × MetaVal)) (k : String) (v : MetaVal)
    (hany : d.any (fun p => p.1 == k) = true) :
    List.find? (fun p => p.1 == k) (d.map (fun p => if p.1 == k then (k, v) else p))
      = some (k, v) := by
  induction d with
  | nil => simp at hany
  | cons p rest ih =>
    rw [List.map_cons]
    by_cases hp : (p.1 == k) = true
    · rw [if_pos hp, find?_pair_cons, if_pos (by simp)]
    · have hpf : (p.1 == k) = false := by simpa using hp
      rw [if_neg hp, find?_pair_cons, if_neg (by simp [hpf])]
      apply ih
      simpa [List.any_cons, hpf] using hany

theorem dictGet_dictSet_self (d : List (String × MetaVal)) (k : String) (v : MetaVal) :
    dictGet (dictSet d k v) k = some v := by
  unfold dictSet dictGet
  split_ifs with hany
  · rw [find?_map_set d k v hany]
    rfl
  · have hnone : List.find? (fun p => p.1 == k) d = none := by
      rw [List.find?_eq_none]
      intro x hx hpx
      exact hany (List.any_eq_true.mpr ⟨x, hx, hpx⟩)
    rw [List.find?_append, hnone, find?_pair_cons, if_pos (by simp)]
    rfl

theorem find?_map_set_other (d : List (String × MetaVal)) (k k2 : String) (v : MetaVal)
    (hne : k ≠ k2) :
    List.find? (fun p => p.1 == k) (d.map (fun p => if p.1 == k2 then (k2, v) else p))
      = List.find? (fun p => p.1 == k) d := by
  induction d with
  | nil => rfl
  | cons p rest ih =>
    rw [List.map_cons]
    by_cases hp2 : (p.1 == k2) = true
    · have hp2eq : p.1 = k2 := by simpa using hp2
      have hpk : ¬ ((p.1 == k) = true) := by
        simp only [beq_iff_eq, hp2eq]
        exact fun h => hne h.symm
      rw [if_pos hp2, find?_pair_cons, if_neg (by simp only [beq_iff_eq]; exact fun h => hne h.symm),
        find?_pair_cons, if_neg hpk]
      exact ih
    · rw [if_neg hp2]
      by_cases hpk : (p.1 == k) = true
      · rw [find?_pair_cons, if_pos hpk, find?_pair_cons, if_pos hpk]
      · rw [find?_pair_cons, if_neg hpk, find?_pair_cons, if_neg hpk]
        exact ih

theorem dictGet_dictSet_other (d : List (String × MetaVal)) (k k2 : String) (v : MetaVal)
    (hne : k ≠ k2) :
    dictGet (dictSet d k2 v) k = dictGet d k := by
  unfold dictSet dictGet
  split_ifs with hany
  · rw [find?_map_set_other d k k2 v hne]
  · rw [List.find?_append, find?_pair_cons,
      if_neg (show ¬ (((k2, v).1 == k) = true) by simp only [beq_iff_eq]; exact fun h => hne h.symm)]
    cases List.find? (fun p => p.1 == k) d <;> rfl

theorem dictGet_dictUpdate_not_mem (extra : List (String × MetaVal)) :
    ∀ (d : List (String × MetaVal)) (k : String), (∀ p ∈ extra, p.1 ≠ k) →
      dictGet (dictUpdate d extra) k = dictGet d k := by
  induction extra with
  | nil => intro d k _; rfl
  | cons e rest ih =>
    intro d k hk
    show dictGet (dictUpdate (dictSet d e.1 e.2) rest) k = dictGet d k
    rw [ih (dictSet d e.1 e.2) k (fun p hp => hk p (by simp [hp]))]
    exact dictGet_dictSet_other d k e.1 e.2 (fun h => hk e (by simp) h.symm)

theorem dictGet_dictUpdate_mem (extra : List (String × MetaVal)) :
    ∀ (d : List (String × MetaVal)) (k : String) (v : MetaVal),
      (extra.map Prod.fst).Nodup → (k, v) ∈ extra →
      dictGet (dictUpdate d extra) k = some v := by
  induction extra with
  | nil => intro d k v _ hmem; simp at hmem
  | cons e rest ih =>
    intro d k v hnd hmem
    have hnd' := hnd
    rw [List.map_cons, List.nodup_cons] at hnd'
    rcases List.mem_cons.mp hmem with he | hrest
    · have he' : e = (k, v) := he.symm
      subst he'
      show dictGet (dictUpdate (dictSet d k v) rest) k = some v
      rw [dictGet_dictUpdate_not_mem rest (dictSet d k v) k ?_]
      · exact dictGet_dictSet_self d k v
      · intro p hp hpk
        exact absurd (List.mem_map.mpr ⟨p, hp, hpk⟩) (by simpa using hnd'.1)
    · exact ih (dictSet d e.1 e.2) k v hnd'.2 hrest

/-- C10. -/
theorem c10_metadata_rounding_merge (cfg : ReaderCfg) (p : PyPath) (blocks : List OcrElem)
    (confs : List ℚ) (extra : List (String × MetaVal))
    (hnd : (extra.map Prod.fst).Nodup) :
    dictGet (buildMetadata cfg p blocks confs none) "avg_confidence"
      = some (MetaVal.q (pyRound4 (pyAvg confs))) ∧
    dictGet (buildMetadata cfg p blocks confs none) "min_confidence"
      = some (MetaVal.q (if confs.isEmpty then 0 else pyRound4 (pyMin confs))) ∧
    dictGet (buildMetadata cfg p blocks confs none) "max_confidence"
      = some (MetaVal.q (if confs.isEmpty then 0 else pyRound4 (pyMax confs))) ∧
    (∀ k v, (k, v) ∈ extra →
      dictGet (buildMetadata cfg p blocks confs (some extra)) k = some v) ∧
    pyRound4 (pyAvg [1 / 3]) ≠ pyAvg [1 / 3] := by
  refine ⟨rfl, rfl, rfl, ?_, ?_⟩
  · intro k v hmem
    exact dictGet_dictUpdate_mem extra _ k v hnd hmem
  · have h1 : pyAvg [(1 : ℚ) / 3] = 1 / 3 := by norm_num [pyAvg]
    have hf : ⌊(1 / 3 : ℚ) * 10000⌋ = 3333 := by
      rw [Int.floor_eq_iff]
      norm_num
    have h2 : pyRound4 ((1 : ℚ) / 3) = 3333 / 10000 := by
      unfold pyRound4 roundHalfEven
      rw [hf]
      norm_num
    rw [h1, h2]
    norm_num

/-- C10 witness. -/
theorem c10_metadata_rounding_merge_witness :
    dictGet (buildMetadata cfg0 path0 [] [] (some [("language", MetaVal.s "en")])) "language"
      = some (MetaVal.s "en") ∧
    dictGet (buildMetadata cfg0 path0 [] [] none) "avg_confidence"
      = some (MetaVal.q (pyRound4 (pyAvg []))) :=
  ⟨(c10_metadata_rounding_merge cfg0 path0 [] [] [("language", MetaVal.s "en")]
      (by simp)).2.2.2.1 "language" (MetaVal.s "en") (by simp),
   (c10_metadata_rounding_merge cfg0 path0 [] [] [] (by simp)).1⟩

end OcrResearch
namespace OcrResearch

theorem intercalate_nil_lem (c : Char) : List.intercalate [c] ([] : List (List Char)) = [] := by
  simp [List.intercalate]

theorem intercalate_single_lem (c : Char) (x : List Char) :
    List.intercalate [c] [x] = x := by
  simp [List.intercalate]

theorem intercalate_cons2_lem (c : Char) (x y : List Char) (rest : List (List Char)) :
    List.intercalate [c] (x :: y :: rest) = x ++ c :: List.intercalate [c] (y :: rest) := by
  simp [List.intercalate, List.intersperse_cons₂]

theorem pyJoin_data (ls : List String) :
    (pyJoin "\n" ls).data = List.intercalate ['\n'] (ls.map String.data) := by
  match ls with
  | [] => simp [pyJoin, intercalate_nil_lem]
  | [x] => simp [pyJoin, intercalate_single_lem]
  | x :: y :: rest =>
    have ih := pyJoin_data (y :: rest)
    simp only [pyJoin, List.map_cons, intercalate_cons2_lem, String.data_append, ih]
    simp

theorem intercalate_append_ne (c : Char) (ys : List (List Char)) (hy : ys ≠ []) :
    ∀ xs : List (List Char), xs ≠ [] →
    List.intercalate [c] (xs ++ ys)
      = List.intercalate [c] xs ++ c :: List.intercalate [c] ys := by
  intro xs
  induction xs with
  | nil => intro h; exact absurd rfl h
  | cons x tail ih =>
    intro _
    cases tail with
    | nil =>
      cases ys with
      | nil => exact absurd rfl hy
      | cons y rest =>
        simp only [List.nil_append, List.singleton_append, intercalate_cons2_lem,
          intercalate_single_lem]
    | cons x2 tail2 =>
      have ihh := ih (by simp)
      simp only [List.cons_append] at ihh ⊢
      rw [intercalate_cons2_lem, intercalate_cons2_lem, ihh]
      simp

end OcrResearch
namespace OcrResearch

theorem digitChar_ne_nl (m : ℕ) : Nat.digitChar m ≠ '\n' := by
  rcases Nat.lt_or_ge m 16 with h | h
  · interval_cases m <;> decide
  · have hstar : Nat.digitChar m = '*' := by
      unfold Nat.digitChar
      repeat rw [if_neg (by omega)]
    rw [hstar]
    decide

theorem toDigitsCore_no_nl (b : ℕ) :
    ∀ (fuel n : ℕ) (ds : List Char), '\n' ∉ ds → '\n' ∉ Nat.toDigitsCore b fuel n ds := by
  intro fuel
  induction fuel with
  | zero => intro n ds h; simpa [Nat.toDigitsCore] using h
  | succ f ih =>
    intro n ds h
    rw [Nat.toDigitsCore]
    split
    · intro hmem
      rcases List.mem_cons.mp hmem with h1 | h2
      · exact digitChar_ne_nl _ h1.symm
      · exact h h2
    · apply ih
      intro hmem
      rcases List.mem_cons.mp hmem with h1 | h2
      · exact digitChar_ne_nl _ h1.symm
      · exact h h2

theorem nat_repr_no_nl (n : ℕ) : '\n' ∉ (Nat.repr n).data := by
  show '\n' ∉ (Nat.toDigits 10 n).asString.data
  have : (Nat.toDigits 10 n).asString.data = Nat.toDigits 10 n := rfl
  rw [this]
  exact toDigitsCore_no_nl 10 (n + 1) n [] (by simp)

theorem int_repr_no_nl (i : ℤ) : '\n' ∉ (Int.repr i).data := by
  cases i with
  | ofNat m => exact nat_repr_no_nl m
  | negSucc m =>
    show '\n' ∉ ("-" ++ Nat.repr (m + 1)).data
    rw [String.data_append]
    intro hmem
    rcases List.mem_append.mp hmem with h1 | h2
    · simp at h1
    · exact nat_repr_no_nl (m + 1) h2

theorem twoDigits_no_nl (m : ℤ) : '\n' ∉ (twoDigits m).data := by
  unfold twoDigits
  split
  · rw [String.data_append]
    intro hmem
    rcases List.mem_append.mp hmem with h1 | h2
    · simp at h1
    · exact int_repr_no_nl m h2
  · exact int_repr_no_nl m

theorem pyFormat2_no_nl (q : ℚ) : '\n' ∉ (pyFormat2 q).data := by
  unfold pyFormat2
  simp only [String.data_append]
  intro hmem
  rcases List.mem_append.mp hmem with h12 | h3
  · rcases List.mem_append.mp h12 with h1 | h2
    · exact int_repr_no_nl _ h1
    · simp at h2
  · exact twoDigits_no_nl _ h3

theorem detailedLine_no_nl (i : ℕ) (t : String) (c : ℚ) (ht : '\n' ∉ t.data) :
    '\n' ∉ (detailedLine i (OcrElem.str t) c).data := by
  unfold detailedLine
  simp only [String.data_append]
  intro hmem
  rcases List.mem_append.mp hmem with h1234 | h5
  · rcases List.mem_append.mp h1234 with h123 | h4
    · rcases List.mem_append.mp h123 with h12 | h3
      · rcases List.mem_append.mp h12 with h1 | h2
        · rcases List.mem_append.mp h1 with ha | hb
          · simp at ha
          · exact nat_repr_no_nl i hb
        · simp at h2
      · exact pyFormat2_no_nl c h3
    · simp at h4
  · exact ht h5

end OcrResearch
namespace OcrResearch

theorem detailedLine_ne_sepLine (i : ℕ) (t : OcrElem) (c : ℚ) :
    detailedLine i t c ≠ sepLine := by
  intro h
  have hd := congrArg (fun s => s.data.head?) h
  simp only [detailedLine, String.data_append] at hd
  rw [show sepLine.data.head? = some '=' from rfl] at hd
  simp only [List.cons_append, List.head?_cons] at hd
  exact absurd (Option.some.inj hd) (by decide)

theorem mem_detailedLinesFrom (ps : List (OcrElem × ℚ)) :
    ∀ (i : ℕ) (l : String), l ∈ detailedLinesFrom i ps →
      ∃ j t c, (t, c) ∈ ps ∧ l = detailedLine j t c := by
  induction ps with
  | nil => intro i l h; simp [detailedLinesFrom] at h
  | cons p rest ih =>
    intro i l h
    rw [show detailedLinesFrom i (p :: rest)
        = detailedLine i p.1 p.2 :: detailedLinesFrom (i + 1) rest from rfl] at h
    rcases List.mem_cons.mp h with h1 | h2
    · exact ⟨i, p.1, p.2, by simp, h1⟩
    · rcases ih (i + 1) l h2 with ⟨j, t, c, hmem, heq⟩
      exact ⟨j, t, c, by simp [hmem], heq⟩

theorem dropWhile_append_of_all {p : String → Bool} (xs ys : List String)
    (h : ∀ x ∈ xs, p x = true) :
    List.dropWhile p (xs ++ ys) = List.dropWhile p ys := by
  induction xs with
  | nil => rfl
  | cons x tail ih =>
    rw [List.cons_append, List.dropWhile_cons, h x (by simp), if_pos rfl,
      ih (fun x hx => h x (by simp [hx]))]

end OcrResearch
namespace OcrResearch

theorem mk_data (s : String) : String.mk s.data = s := rfl

theorem map_mk_data (l : List String) : (l.map String.data).map String.mk = l := by
  induction l with
  | nil => rfl
  | cons x xs ih => simp only [List.map_cons, mk_data, ih]

/-- C4 amended. -/
theorem c4_roundtrip (texts : List String) (confs : List ℚ) (hne : texts ≠ [])
    (hlen : texts.length = confs.length) (hnl : ∀ t ∈ texts, '\n' ∉ t.data) :
    (formatTextBlocks (texts.map OcrElem.str) confs).map plainTextLines
      = Except.ok texts := by
  rcases texts with _ | ⟨t, ts⟩
  · exact absurd rfl hne
  rcases confs with _ | ⟨c, cs⟩
  · simp at hlen
  rw [formatTextBlocks_strings (t :: ts) (c :: cs) hne]
  show Except.ok (plainTextLines (pyJoin "\n" (detailedLinesFrom 1
      (((t :: ts).map OcrElem.str).zip (c :: cs))) ++ sepBanner ++ pyJoin "\n" (t :: ts)))
    = Except.ok (t :: ts)
  congr 1
  have hd : ∀ l ∈ detailedLinesFrom 1 (((t :: ts).map OcrElem.str).zip (c :: cs)),
      '\n' ∉ l.data ∧ l ≠ sepLine := by
    intro l hl
    rcases mem_detailedLinesFrom _ _ l hl with ⟨j, te, cc, hmem, heq⟩
    rcases List.of_mem_zip hmem with ⟨ht, _⟩
    rcases List.mem_map.mp ht with ⟨t0, ht0, rfl⟩
    subst heq
    exact ⟨detailedLine_no_nl j t0 cc (hnl t0 ht0), detailedLine_ne_sepLine j _ cc⟩
  have hdata : (pyJoin "\n" (detailedLinesFrom 1 (((t :: ts).map OcrElem.str).zip (c :: cs)))
        ++ sepBanner ++ pyJoin "\n" (t :: ts)).data
      = List.intercalate ['\n']
          (((detailedLinesFrom 1 (((t :: ts).map OcrElem.str).zip (c :: cs)))
            ++ ("" :: sepLine :: t :: ts)).map String.data) := by
    rw [List.map_append,
      intercalate_append_ne '\n' _ (by simp) _
        (by show (detailedLinesFrom 1 _).map String.data ≠ []; simp [detailedLinesFrom])]
    rw [show ("" :: sepLine :: t :: ts).map String.data
        = [] :: sepLine.data :: t.data :: ts.map String.data from rfl]
    rw [intercalate_cons2_lem, intercalate_cons2_lem]
    simp only [String.data_append, pyJoin_data]
    rw [show sepBanner.data = '\n' :: '\n' :: (sepLine.data ++ ['\n']) from rfl]
    simp [List.append_assoc]
  have hx : ∀ l ∈ ((detailedLinesFrom 1 (((t :: ts).map OcrElem.str).zip (c :: cs)))
      ++ ("" :: sepLine :: t :: ts)).map String.data, '\n' ∉ l := by
    intro l hl
    rcases List.mem_map.mp hl with ⟨x, hxx, rfl⟩
    rcases List.mem_append.mp hxx with h1 | h2
    · exact (hd x h1).1
    · rcases List.mem_cons.mp h2 with rfl | h3
      · simp
      · rcases List.mem_cons.mp h3 with rfl | h4
        · decide
        · exact hnl x h4
  have hparse : parseLines (pyJoin "\n" (detailedLinesFrom 1
        (((t :: ts).map OcrElem.str).zip (c :: cs))) ++ sepBanner ++ pyJoin "\n" (t :: ts))
      = (detailedLinesFrom 1 (((t :: ts).map OcrElem.str).zip (c :: cs)))
          ++ ("" :: sepLine :: t :: ts) := by
    unfold parseLines
    rw [hdata, List.splitOn_intercalate _ '\n' hx (by simp)]
    exact map_mk_data _
  unfold plainTextLines
  rw [hparse]
  rw [dropWhile_append_of_all _ _ (fun l hl => by simpa using (hd l hl).2)]
  rw [List.dropWhile_cons, if_pos (by decide)]
  rw [List.dropWhile_cons, if_neg (by simp)]
  rfl

/-- C4 witness. -/
theorem c4_roundtrip_witness :
    (formatTextBlocks (["A"].map OcrElem.str) [1]).map plainTextLines
      = Except.ok ["A"] :=
  c4_roundtrip ["A"] [1] (by decide) (by decide) (by decide)

/-- C4 counterexample. -/
theorem c4_counterexample :
    (formatTextBlocks [OcrElem.str "A\nB"] [9 / 10]).map plainTextLines
      = Except.ok ["A", "B"] ∧ (["A", "B"] : List String) ≠ ["A\nB"] := by
  have hline : detailedLine 1 (OcrElem.str "A\nB") (9 / 10)
      = "[Block 1] (conf: 0.90): A\nB" := by
    rw [detailedLine, pyFormat2_eq (9 / 10) 90 (by norm_num)]
    rfl
  have hf := formatTextBlocks_strings ["A\nB"] [9 / 10] (by simp)
  simp only [List.map_cons, List.map_nil] at hf
  have h : formatTextBlocks [OcrElem.str "A\nB"] [9 / 10]
      = .ok ("[Block 1] (conf: 0.90): A\nB" ++ sepBanner ++ "A\nB") := by
    rw [hf]
    show Except.ok (pyJoin "\n" [detailedLine 1 (OcrElem.str "A\nB") (9 / 10)]
        ++ sepBanner ++ pyJoin "\n" ["A\nB"]) = _
    rw [show pyJoin "\n" [detailedLine 1 (OcrElem.str "A\nB") (9 / 10)]
        = detailedLine 1 (OcrElem.str "A\nB") (9 / 10) from rfl, hline]
    rfl
  rw [h]
  constructor
  · show Except.ok (plainTextLines ("[Block 1] (conf: 0.90): A\nB" ++ sepBanner ++ "A\nB"))
      = Except.ok ["A", "B"]
    congr 1
  · decide

end OcrResearch
